import Mathlib

/-!
Shallow embedding, in Lean 4, of the query-performance analysis pipeline of
the QueryIQ repository: the plan parser (`app/services/plan_parser.py`), the
rule engine (`app/services/rule_engine.py`), the feature extractor's
complexity score (`app/services/feature_extractor.py`) and the benchmark
engine (`app/services/benchmark_engine.py`). Python floats are modelled as
exact rationals (`Rat`); Python's dynamic JSON values are modelled by the
`Json` type below; code that performs I/O (database queries, timing, the
external rewrite provider) is modelled by explicit outcome parameters.
-/

mutual

/-- JSON values as Python holds them after `json.loads` / JSONB decoding.
Numbers are modelled as rationals. Objects are association lists; the code
under verification receives Python dicts, whose keys are unique, and lookups
below take the first matching key. `JsonList` and `JsonFields` are explicit
list types so that all recursion over the family is structural. -/
inductive Json where
  | null : Json
  | bool (b : Bool) : Json
  | num (q : Rat) : Json
  | str (s : String) : Json
  | arr (elems : JsonList) : Json
  | obj (fields : JsonFields) : Json

/-- Spine of a JSON array. -/
inductive JsonList where
  | nil : JsonList
  | cons (hd : Json) (tl : JsonList) : JsonList

/-- Spine of a JSON object: key/value pairs in insertion order. -/
inductive JsonFields where
  | nil : JsonFields
  | cons (key : String) (val : Json) (tl : JsonFields) : JsonFields
end

/-- First binding of `key`, as Python `dict` lookup on a dict with unique keys. -/
def lookupField : JsonFields → String → Option Json
  | .nil, _ => none
  | .cons k v tl, key => if k == key then some v else lookupField tl key

/-- Python `key in dict`. -/
def hasField (fs : JsonFields) (key : String) : Bool :=
  (lookupField fs key).isSome

/-- Python `dict.get(key, default)`. -/
def pyGet (fs : JsonFields) (key : String) (dflt : Json) : Json :=
  (lookupField fs key).getD dflt

/-- Python equality of a JSON value and a string: false for non-strings. -/
def jsonStrEq (hd : Json) (s : String) : Bool :=
  match hd with
  | .str t => t == s
  | _ => false

/-- Python `s in list` for a string `s`: some element equals the string. -/
def jsonListHasStr : JsonList → String → Bool
  | .nil, _ => false
  | .cons hd tl, s => jsonStrEq hd s || jsonListHasStr tl s

/-- Python truthiness of a JSON-decoded value. -/
def jsonTruthy : Json → Bool
  | .null => false
  | .bool b => b
  | .num q => decide (q ≠ 0)
  | .str s => !s.isEmpty
  | .arr .nil => false
  | .arr (.cons _ _) => true
  | .obj .nil => false
  | .obj (.cons _ _ _) => true

/-- Python `needle in v` for a string needle: substring test on strings,
element equality on lists, key membership on dicts, `TypeError` otherwise. -/
def pyInStr (needle : String) : Json → Except String Bool
  | .str s => .ok (decide (needle.toList <:+: s.toList))
  | .arr xs => .ok (jsonListHasStr xs needle)
  | .obj fs => .ok (hasField fs needle)
  | _ => .error "TypeError: argument is not iterable"

/-- Value of a list of decimal digits. -/
def decDigitsVal (ds : List Char) : Nat :=
  ds.foldl (fun a c => a * 10 + (c.toNat - 48)) 0

/-- Python `float(s)` on a string, modelled for plain decimal literals:
optional surrounding spaces, an optional sign, digits with at most one
decimal point (at least one digit overall). Python additionally accepts
exponents, `inf`/`nan` and underscores; no claim below depends on those
forms. -/
def pyFloatOfChars (cs0 : List Char) : Option Rat :=
  let cs1 := cs0.dropWhile (fun c => c == ' ')
  let cs2 := (cs1.reverse.dropWhile (fun c => c == ' ')).reverse
  let signAndRest : Rat × List Char :=
    match cs2 with
    | '-' :: rest => (-1, rest)
    | '+' :: rest => (1, rest)
    | _ => (1, cs2)
  let sign := signAndRest.1
  let cs := signAndRest.2
  let intPart := cs.takeWhile Char.isDigit
  let rest1 := cs.dropWhile Char.isDigit
  match rest1 with
  | [] => if intPart.isEmpty then none else some (sign * (decDigitsVal intPart : Rat))
  | '.' :: rest2 =>
    let fracPart := rest2.takeWhile Char.isDigit
    let rest3 := rest2.dropWhile Char.isDigit
    if rest3.isEmpty && !(intPart.isEmpty && fracPart.isEmpty) then
      some (sign * ((decDigitsVal intPart : Rat) +
        (decDigitsVal fracPart : Rat) / ((10 : Rat) ^ fracPart.length)))
    else none
  | _ => none

/-- Python `float(v)` on a JSON-decoded value. -/
def pyFloat : Json → Except String Rat
  | .num q => .ok q
  | .bool b => .ok (if b then 1 else 0)
  | .str s =>
    match pyFloatOfChars s.toList with
    | some q => .ok q
    | none => .error "ValueError: could not convert string to float"
  | _ => .error "TypeError: float argument must be a string or a real number"

/-- Rendering of a number for `str()`. Python prints floats in decimal
notation; this prints `num/den`. The rendering of a number never contains a
letter or a space in either form, so occurrences of substrings such as
"Seq Scan" are unaffected; no claim below depends on the digits printed. -/
def renderNum (q : Rat) : List Char :=
  if q.den == 1 then (toString q.num).toList
  else (toString q.num ++ "/" ++ toString q.den).toList

mutual

/-- Python `str(v)` on a JSON-decoded value (the `repr`-style rendering used
for dicts and lists): `None`/`True`/`False`, numbers, `'s'` for strings,
`[a, b]` for lists, `{'k': v}` for dicts. Quote/backslash escaping inside
string reprs is not modelled (the string's characters are emitted verbatim);
escaping only rewrites quotes and backslashes and so cannot create or destroy
an occurrence of "Seq Scan". -/
def render : Json → List Char
  | .null => "None".toList
  | .bool b => if b then "True".toList else "False".toList
  | .num q => renderNum q
  | .str s => '\'' :: s.toList ++ ['\'']
  | .arr xs => '[' :: renderElems xs ++ [']']
  | .obj fs => '{' :: renderFields fs ++ ['}']

/-- Elements joined by ", ". -/
def renderElems : JsonList → List Char
  | .nil => []
  | .cons hd tl =>
    render hd ++ (match tl with | .nil => [] | .cons _ _ => [',', ' ']) ++ renderElems tl

/-- Fields joined by ", "; each entry rendered as `'key': value` (the entry
rendering is also available separately as `renderField`). -/
def renderFields : JsonFields → List Char
  | .nil => []
  | .cons k v tl =>
    ('\'' :: k.toList ++ '\'' :: ':' :: ' ' :: render v) ++
      (match tl with | .nil => [] | .cons _ _ _ => [',', ' ']) ++
      renderFields tl

end

/-- One `'key': value` entry of a dict rendering. -/
def renderField (k : String) (v : Json) : List Char :=
  '\'' :: k.toList ++ '\'' :: ':' :: ' ' :: render v

/-- Scalar fields of a parsed plan node (`PlanNode` dataclass of
`plan_parser.py`). The dataclass is duck-typed: fields annotated `str` or
`float` can hold any JSON value at runtime, so the raw JSON values are kept. -/
structure PlanNodeData where
  nodeType : Json
  totalCost : Rat
  actualTime : Option Json
  planRows : Option Json
  actualRows : Option Json
  scanType : Option Json
  joinType : Option Json
  tableName : Option Json
  indexName : Option Json

mutual

/-- A node of the parsed execution-plan tree. -/
inductive PlanNode where
  | mk (data : PlanNodeData) (children : PlanNodeList) : PlanNode

/-- Spine of a plan node's child list. -/
inductive PlanNodeList where
  | nil : PlanNodeList
  | cons (hd : PlanNode) (tl : PlanNodeList) : PlanNodeList

end

/-- Scalar data of a node. -/
def PlanNode.data : PlanNode → PlanNodeData
  | .mk d _ => d

/-- Children of a node. -/
def PlanNode.children : PlanNode → PlanNodeList
  | .mk _ c => c

mutual

/-- `PlanParser._parse_node`. Extracts `Node Type` (default the string
"Unknown"), converts `Total Cost` (default 0) with `float(...)`, tests
`"Scan" in node_type` and `"Join" in node_type` (either may raise a
`TypeError` for a number/bool/None node type), and recursively parses the
`Plans` entry. Any exception propagates: the parse of the whole tree fails
and no partial tree is returned (`Except` carries the error). -/
def parseNode : Json → Except String PlanNode
  | .obj fields =>
    let nodeType := pyGet fields "Node Type" (.str "Unknown")
    match pyFloat (pyGet fields "Total Cost" (.num 0)) with
    | .error e => .error e
    | .ok totalCost =>
      match pyInStr "Scan" nodeType with
      | .error e => .error e
      | .ok isScan =>
        match pyInStr "Join" nodeType with
        | .error e => .error e
        | .ok isJoin =>
          match parsePlansIn fields with
          | .error e => .error e
          | .ok children =>
            .ok (.mk
              { nodeType := nodeType
                totalCost := totalCost
                actualTime := lookupField fields "Actual Time"
                planRows := lookupField fields "Plan Rows"
                actualRows := lookupField fields "Actual Rows"
                scanType := if isScan then some nodeType else none
                joinType := if isJoin then some nodeType else none
                tableName := if isScan then lookupField fields "Relation Name" else none
                indexName := if isScan then lookupField fields "Index Name" else none }
              children)
  | _ => .error "AttributeError: object has no attribute get"

/-- The `if "Plans" in node_data: for child_data in node_data["Plans"]` loop,
fused with the key lookup so the recursion is structural. Iterating a Python
value: a list yields its elements; a dict yields its keys (strings, so the
first key fails to parse as a node unless the dict is empty); a string yields
its characters (likewise); other values raise `TypeError`. -/
def parsePlansIn : JsonFields → Except String PlanNodeList
  | .nil => .ok .nil
  | .cons k v tl =>
    if k == "Plans" then
      match v with
      | .arr xs => parseChildren xs
      | .obj .nil => .ok .nil
      | .obj (.cons _ _ _) => .error "AttributeError: object has no attribute get"
      | .str s =>
        if s.isEmpty then .ok .nil
        else .error "AttributeError: object has no attribute get"
      | _ => .error "TypeError: object is not iterable"
    else parsePlansIn tl

/-- Parses each child in order; the first failure aborts the whole parse. -/
def parseChildren : JsonList → Except String PlanNodeList
  | .nil => .ok .nil
  | .cons hd tl =>
    match parseNode hd with
    | .error e => .error e
    | .ok c =>
      match parseChildren tl with
      | .error e => .error e
      | .ok cs => .ok (.cons c cs)

end

/-- `PlanParser.parse_plan_json`: a list root is replaced by its first element
(the indexing raises on an empty list); then `_parse_node` runs. The
`try`/`except` re-raises, so errors propagate unchanged. -/
def parsePlanJson : Json → Except String PlanNode
  | .arr .nil => .error "IndexError: list index out of range"
  | .arr (.cons hd _) => parseNode hd
  | j => parseNode j

/-- Whether an `Except` result is a success. -/
def exceptOk : Except String PlanNode → Bool
  | .ok _ => true
  | .error _ => false

/-- The root after `parse_plan_json`'s list unwrapping: the first element of a
non-empty list root, the value itself otherwise; `none` for an empty list root
(where indexing raises before any parse). -/
def rootAfterUnwrap : Json → Option Json
  | .arr .nil => none
  | .arr (.cons hd _) => some hd
  | j => some j

/-- Whether a JSON value is an object. -/
def isObjB : Json → Bool
  | .obj _ => true
  | _ => false

mutual

/-- `PlanParser._calculate_depth`: returns `current_depth` at a leaf,
otherwise the maximum over children of the depth at `current_depth + 1`
(folded through `max_depth`, which starts at `current_depth`). -/
def calculateDepth : PlanNode → Nat → Nat
  | .mk _ .nil, currentDepth => currentDepth
  | .mk _ (.cons c rest), currentDepth =>
    calculateDepthFold (.cons c rest) currentDepth currentDepth

/-- The `for child in node.children` fold accumulating `max_depth`. -/
def calculateDepthFold : PlanNodeList → Nat → Nat → Nat
  | .nil, _, maxDepth => maxDepth
  | .cons c rest, currentDepth, maxDepth =>
    calculateDepthFold rest currentDepth (max maxDepth (calculateDepth c (currentDepth + 1)))

end

mutual

/-- Maximum number of edges on any root-to-leaf path, written the way the
spec states it: 0 at a leaf, otherwise one more than the maximum over
children. This is the specification-side definition that
`calculateDepth · 0` is compared against. -/
def maxRootToLeafEdges : PlanNode → Nat
  | .mk _ .nil => 0
  | .mk _ (.cons c rest) => 1 + maxEdgesList (.cons c rest)

/-- Maximum of `maxRootToLeafEdges` over a list of nodes (0 when empty). -/
def maxEdgesList : PlanNodeList → Nat
  | .nil => 0
  | .cons c rest => max (maxRootToLeafEdges c) (maxEdgesList rest)

end

mutual

/-- `PlanParser._has_sequential_scan`: returns true when the node's
`scan_type` is truthy and `"Seq Scan" in scan_type` holds (the membership
test may raise for ill-typed scan types, hence `Except`), otherwise
recurses into the children, short-circuiting on the first hit. -/
def hasSeqScanE : PlanNode → Except String Bool
  | .mk d cs =>
    match d.scanType with
    | some v =>
      if jsonTruthy v then
        match pyInStr "Seq Scan" v with
        | .error e => .error e
        | .ok true => .ok true
        | .ok false => hasSeqScanListE cs
      else hasSeqScanListE cs
    | none => hasSeqScanListE cs

/-- The `for child in node.children` loop of `_has_sequential_scan`. -/
def hasSeqScanListE : PlanNodeList → Except String Bool
  | .nil => .ok false
  | .cons c cs =>
    match hasSeqScanE c with
    | .error e => .error e
    | .ok true => .ok true
    | .ok false => hasSeqScanListE cs

end

/-- Whether the plan JSON, parsed by `parse_plan_json`, contains a sequential
scan in the sense of `_has_sequential_scan` (the spec's notion of "the plan
contains a sequential scan"). -/
def planContainsSeqScan (j : Json) : Except String Bool :=
  match parsePlanJson j with
  | .error e => .error e
  | .ok t => hasSeqScanE t

/-- The 10000 ms sentinel duration substituted for a failed measurement. -/
def sentinelMs : Rat := 10000

/-- Nondeterministic environment of one `_benchmark_query` call: whether the
connection is established, whether the warm-up statement and the final close
succeed, and per-iteration outcomes (`some t` = the query ran and measured
`t` milliseconds, `none` = the execution raised). -/
structure BenchParams where
  connectOk : Bool
  warmupOk : Bool
  closeOk : Bool
  iterOutcome : Nat → Option Rat

/-- `BenchmarkEngine._benchmark_query`. Connection or warm-up failure is
caught by the outer handler, which replaces the whole list with
`iterations` copies of the sentinel; so is a failure of the final
`conn.close()` (it sits inside the outer `try`, after the loop). A
per-iteration failure appends the sentinel for that iteration and the loop
continues. The function is total: no exception escapes. -/
def benchmarkQuery (_query : String) (p : BenchParams) (iterations : Nat) : List Rat :=
  if p.connectOk && p.warmupOk then
    let times := (List.range iterations).map fun i =>
      match p.iterOutcome i with
      | some t => t
      | none => sentinelMs
    if p.closeOk then times else List.replicate iterations sentinelMs
  else List.replicate iterations sentinelMs

/-- Result of the external rewrite provider (`gemini_optimizer.optimize_query`).
The provider catches its own exceptions and falls back to the original query
with `optimization_type="FAILED"`, so the call is total and is modelled as a
plain input value. -/
structure OptimizationResult where
  originalQuery : String
  optimizedQuery : String
  optimizationType : String
  confidence : Rat
  explanation : String
  estimatedImprovement : Rat

/-- The `BenchmarkResult` dataclass. -/
structure BenchmarkResult where
  queryId : String
  originalQuery : String
  optimizedQuery : String
  originalTimes : List Rat
  optimizedTimes : List Rat
  originalAvgMs : Rat
  optimizedAvgMs : Rat
  improvementPct : Rat
  improvementMs : Rat
  success : Bool
  errorMessage : Option String
  confidence : Rat
  optimizationType : String

/-- Arithmetic mean (`statistics.mean`) of a non-empty list; the caller
guards emptiness, where Python raises `StatisticsError`. -/
def mean (xs : List Rat) : Rat :=
  xs.sum / (xs.length : Rat)

/-- A row of `query_logs` as the rule and benchmark engines read it. -/
structure QueryLog where
  id : String
  queryText : String
  queryHash : String
  totalExecTime : Rat
  meanExecTime : Rat
  calls : Int

/-- Observable outcome of one `run_comprehensive_benchmark` call: the
returned result, and whether `_store_benchmark_result` was invoked at all
(that call swallows its own database errors, so "attempted" is the
strongest persistence fact the engine guarantees). -/
structure RunOutcome where
  result : BenchmarkResult
  storeAttempted : Bool

/-- `BenchmarkEngine.run_comprehensive_benchmark`. Schema extraction and the
rewrite provider catch their own exceptions, and `_benchmark_query` is total,
so the only statement inside the `try` that can raise is `statistics.mean`
on an empty timing list (`iterations = 0`). On that internal failure the
`except` branch returns — without storing — a result with `success=False`,
the error message, and `[0.0]` for both time series (dataclass defaults fill
`confidence=0.0` and `optimization_type="UNKNOWN"`). On the success path the
result is handed to `_store_benchmark_result` and returned. -/
def runComprehensiveBenchmark (queryLog : QueryLog)
    (optimizationResult : OptimizationResult)
    (origParams optParams : BenchParams) (iterations : Nat) : RunOutcome :=
  let originalTimes := benchmarkQuery queryLog.queryText origParams iterations
  let optimizedTimes :=
    benchmarkQuery optimizationResult.optimizedQuery optParams iterations
  if originalTimes.isEmpty || optimizedTimes.isEmpty then
    { result :=
        { queryId := queryLog.id
          originalQuery := queryLog.queryText
          optimizedQuery := queryLog.queryText
          originalTimes := [0]
          optimizedTimes := [0]
          originalAvgMs := 0
          optimizedAvgMs := 0
          improvementPct := 0
          improvementMs := 0
          success := false
          errorMessage := some "mean requires at least one data point"
          confidence := 0
          optimizationType := "UNKNOWN" }
      storeAttempted := false }
  else
    let originalAvg := mean originalTimes
    let optimizedAvg := mean optimizedTimes
    let improvementMs := originalAvg - optimizedAvg
    let improvementPct :=
      if originalAvg > 0 then (improvementMs / originalAvg) * 100 else 0
    { result :=
        { queryId := queryLog.id
          originalQuery := queryLog.queryText
          optimizedQuery := optimizationResult.optimizedQuery
          originalTimes := originalTimes
          optimizedTimes := optimizedTimes
          originalAvgMs := originalAvg
          optimizedAvgMs := optimizedAvg
          improvementPct := improvementPct
          improvementMs := improvementMs
          success := true
          errorMessage := none
          confidence := optimizationResult.confidence
          optimizationType := optimizationResult.optimizationType }
      storeAttempted := true }

/-- The settings the rule engine reads (`app/core/config.py`; defaults
`slow_query_threshold_ms = 1000`, `max_suggestions_per_query = 10`). -/
structure Settings where
  slowQueryThresholdMs : Rat
  maxSuggestionsPerQuery : Nat

/-- The configured defaults. -/
def defaultSettings : Settings :=
  { slowQueryThresholdMs := 1000, maxSuggestionsPerQuery := 10 }

/-- A row of `query_features` as the rule engine reads it
(`indexed_tables_pct` and `avg_table_size_mb` are nullable columns). -/
structure QueryFeature where
  numJoins : Int
  hasSelectStar : Bool
  hasWhereClause : Bool
  numSubqueries : Int
  indexedTablesPct : Option Rat
  avgTableSizeMb : Option Rat

/-- A row of `execution_plans` as the rule engine reads it. -/
structure ExecutionPlan where
  planJson : Option Json
  totalCost : Option Rat
  planDepth : Option Int

/-- A `Suggestion` record as the rule engine constructs it. -/
structure Suggestion where
  suggestionType : String
  message : String
  confidence : Rat
  source : String
  estimatedImprovementMs : Rat
  implementationCost : String

/-- Whether `sub` occurs as a substring of `hay` (Python `sub in hay`). -/
def strContainsSub (hay sub : String) : Bool :=
  decide (sub.toList <:+: hay.toList)

/-- `RuleEngine._apply_query_structure_rules`. Messages interpolate numbers
with `toString` where Python uses f-string formatting; no claim depends on
message text. -/
def applyQueryStructureRules (queryLog : QueryLog) :
    Option QueryFeature → List Suggestion
  | none => []
  | some qf =>
    (if qf.hasSelectStar then
      [{ suggestionType := "QUERY_REWRITE"
         message := "Consider replacing SELECT * with specific column names to improve performance and reduce network transfer"
         confidence := 4/5
         source := "RULE_ENGINE"
         estimatedImprovementMs := 50
         implementationCost := "LOW" }]
     else []) ++
    (if !qf.hasWhereClause && strContainsSub queryLog.queryText.toUpper "SELECT" then
      [{ suggestionType := "QUERY_REWRITE"
         message := "Consider adding a WHERE clause to filter results and improve performance"
         confidence := 3/5
         source := "RULE_ENGINE"
         estimatedImprovementMs := 100
         implementationCost := "LOW" }]
     else []) ++
    (if qf.numJoins > 3 then
      [{ suggestionType := "QUERY_REWRITE"
         message := "Query has " ++ toString qf.numJoins ++ " joins. Consider breaking it into smaller queries or adding indexes"
         confidence := 7/10
         source := "RULE_ENGINE"
         estimatedImprovementMs := 200
         implementationCost := "MEDIUM" }]
     else []) ++
    (if qf.numSubqueries > 0 then
      [{ suggestionType := "QUERY_REWRITE"
         message := "Consider replacing subqueries with JOINs for better performance"
         confidence := 3/5
         source := "RULE_ENGINE"
         estimatedImprovementMs := 150
         implementationCost := "MEDIUM" }]
     else [])

/-- `RuleEngine._apply_performance_rules` (the feature argument is unused by
the source as well). -/
def applyPerformanceRules (st : Settings) (queryLog : QueryLog)
    (_queryFeature : Option QueryFeature) : List Suggestion :=
  (if queryLog.meanExecTime > st.slowQueryThresholdMs then
    [{ suggestionType := "PERFORMANCE"
       message := "Query execution time (" ++ toString queryLog.meanExecTime ++ "ms) exceeds threshold. Consider optimization"
       confidence := 9/10
       source := "RULE_ENGINE"
       estimatedImprovementMs := queryLog.meanExecTime * (1/2)
       implementationCost := "HIGH" }]
   else []) ++
  (if queryLog.calls > 1000 then
    [{ suggestionType := "CACHING"
       message := "Query called " ++ toString queryLog.calls ++ " times. Consider implementing caching or query optimization"
       confidence := 4/5
       source := "RULE_ENGINE"
       estimatedImprovementMs := 100
       implementationCost := "MEDIUM" }]
   else []) ++
  (if queryLog.totalExecTime > 10000 then
    [{ suggestionType := "PERFORMANCE"
       message := "Total execution time is " ++ toString queryLog.totalExecTime ++ "ms. This query needs optimization"
       confidence := 9/10
       source := "RULE_ENGINE"
       estimatedImprovementMs := queryLog.totalExecTime * (3/10)
       implementationCost := "HIGH" }]
   else [])

/-- The characters of "Seq Scan", the needle of the sequential-scan rule. -/
def seqScanChars : List Char := "Seq Scan".toList

/-- Guard of the sequential-scan rule:
`execution_plan.plan_json and "Seq Scan" in str(execution_plan.plan_json)` —
a truthiness test on the raw JSON column followed by a substring test on its
`str()` rendering (not a test on the parsed plan tree). -/
def planSeqScanFires (ep : ExecutionPlan) : Bool :=
  match ep.planJson with
  | some j => jsonTruthy j && decide (seqScanChars <:+: render j)
  | none => false

/-- `RuleEngine._apply_plan_based_rules`. The cost and depth rules test
truthiness of the nullable column before comparing (`x and x > threshold`). -/
def applyPlanBasedRules (_queryLog : QueryLog) :
    Option ExecutionPlan → List Suggestion
  | none => []
  | some ep =>
    (if planSeqScanFires ep then
      [{ suggestionType := "INDEX"
         message := "Query uses sequential scan. Consider adding indexes on frequently queried columns"
         confidence := 4/5
         source := "RULE_ENGINE"
         estimatedImprovementMs := 300
         implementationCost := "MEDIUM" }]
     else []) ++
    (match ep.totalCost with
     | some c =>
       if c ≠ 0 ∧ c > 1000 then
         [{ suggestionType := "OPTIMIZATION"
            message := "Execution plan has high cost (" ++ toString c ++ "). Consider query rewrite or indexing"
            confidence := 7/10
            source := "RULE_ENGINE"
            estimatedImprovementMs := 200
            implementationCost := "HIGH" }]
       else []
     | none => []) ++
    (match ep.planDepth with
     | some d =>
       if d ≠ 0 ∧ d > 5 then
         [{ suggestionType := "QUERY_REWRITE"
            message := "Execution plan is deep (" ++ toString d ++ " levels). Consider simplifying the query"
            confidence := 3/5
            source := "RULE_ENGINE"
            estimatedImprovementMs := 150
            implementationCost := "MEDIUM" }]
       else []
     | none => [])

/-- `RuleEngine._apply_index_rules`. The first rule's guard is
`query_feature and query_feature.indexed_tables_pct and pct < 50`: a NULL or
0.0 percentage is falsy and skips the rule. The execution-plan argument is
unused by the source as well. -/
def applyIndexRules (_queryLog : QueryLog) (queryFeature : Option QueryFeature)
    (_executionPlan : Option ExecutionPlan) : List Suggestion :=
  (match queryFeature with
   | some qf =>
     (match qf.indexedTablesPct with
      | some pct =>
        if pct ≠ 0 ∧ pct < 50 then
          [{ suggestionType := "INDEX"
             message := "Only " ++ toString pct ++ "% of tables have indexes. Consider adding indexes"
             confidence := 7/10
             source := "RULE_ENGINE"
             estimatedImprovementMs := 250
             implementationCost := "MEDIUM" }]
        else []
      | none => [])
   | none => []) ++
  (match queryFeature with
   | some qf =>
     if qf.hasWhereClause then
       [{ suggestionType := "INDEX"
          message := "Query has WHERE clause. Ensure indexed columns are used in WHERE conditions"
          confidence := 3/5
          source := "RULE_ENGINE"
          estimatedImprovementMs := 100
          implementationCost := "LOW" }]
     else []
   | none => [])

/-- `RuleEngine.generate_suggestions`: concatenates the four rule groups in
their fixed order and truncates to the first `max_suggestions_per_query`
entries (the database write and logging are side effects on the returned
list's elements and do not change the list). -/
def generateSuggestions (st : Settings) (queryLog : QueryLog)
    (queryFeature : Option QueryFeature)
    (executionPlan : Option ExecutionPlan) : List Suggestion :=
  let suggestions :=
    applyQueryStructureRules queryLog queryFeature ++
    applyPerformanceRules st queryLog queryFeature ++
    applyPlanBasedRules queryLog executionPlan ++
    applyIndexRules queryLog queryFeature executionPlan
  if suggestions.length > st.maxSuggestionsPerQuery then
    suggestions.take st.maxSuggestionsPerQuery
  else suggestions

/-- Word characters for the regex word boundary: letters, digits, underscore. -/
def isWordChar (c : Char) : Bool :=
  c.isAlphanum || c == '_'

/-- Whether the position after `prev` is at a word boundary before a word
character. -/
def boundaryBefore : Option Char → Bool
  | none => true
  | some c => !isWordChar c

/-- Whether the list starts with `EXISTS` followed by a word boundary
(the alternative of the regex of the EXISTS/IN bonus term). -/
def matchesExistsAt : List Char → Bool
  | 'E' :: 'X' :: 'I' :: 'S' :: 'T' :: 'S' :: rest =>
    match rest with
    | [] => true
    | c :: _ => !isWordChar c
  | _ => false

/-- Whether the list starts with `IN`, optional whitespace, then a left
parenthesis (the other alternative of the regex). -/
def matchesInParenAt : List Char → Bool
  | 'I' :: 'N' :: rest =>
    match rest.dropWhile (fun c => c.isWhitespace) with
    | '(' :: _ => true
    | _ => false
  | _ => false

/-- Scan for the first match of the EXISTS/IN regex, tracking the previous
character for the word boundary. -/
def existsInScan : Option Char → List Char → Bool
  | _, [] => false
  | prev, c :: rest =>
    (boundaryBefore prev && (matchesExistsAt (c :: rest) || matchesInParenAt (c :: rest))) ||
      existsInScan (some c) rest

/-- The case-insensitive search `\bEXISTS\b|\bIN\s*\(` of the complexity
score, modelled by uppercasing the text and scanning (the keywords are
ASCII, where uppercasing and `re.IGNORECASE` agree). -/
def existsInMatch (text : String) : Bool :=
  existsInScan none text.toUpper.toList

/-- `FeatureExtractor._calculate_complexity_score_with_ast`. The join and
subquery counts are the extractor's derived counts, which are non-negative
(`len`, `sum(1 for _)`, `max(0, ...)`), hence `Nat`. Float literals 0.15,
0.4, 0.25, 0.5, 0.08, 0.12 are modelled as exact rationals. -/
def complexityScore (queryText : String) (numJoins numSubqueries : Nat)
    (hasAggregate : Bool) : Rat :=
  min
    ((0 : Rat) + min ((queryText.length : Rat) / 1000) 1 +
      min ((numJoins : Rat) * (3/20)) (2/5) +
      min ((numSubqueries : Rat) * (1/4)) (1/2) +
      (if hasAggregate then (2/25 : Rat) else 0) +
      (if strContainsSub queryText.toUpper "UNION" then (3/25 : Rat) else 0) +
      (if existsInMatch queryText then (2/25 : Rat) else 0))
    1

/-- A concrete query log used by concrete instantiations below. -/
def concreteQueryLog : QueryLog :=
  { id := "q1", queryText := "SELECT * FROM t", queryHash := "h",
    totalExecTime := 0, meanExecTime := 0, calls := 0 }

/-- A concrete rewrite-provider result. -/
def concreteOptResult : OptimizationResult :=
  { originalQuery := "SELECT * FROM t", optimizedQuery := "SELECT id FROM t",
    optimizationType := "REWRITE", confidence := 9/10, explanation := "",
    estimatedImprovement := 0 }

/-- A benchmark environment where everything succeeds and each iteration
measures 5 ms. -/
def concreteBenchOk : BenchParams :=
  { connectOk := true, warmupOk := true, closeOk := true,
    iterOutcome := fun _ => some 5 }

/-- A benchmark environment measuring the spec's example original timings. -/
def exampleOrigBench : BenchParams :=
  { connectOk := true, warmupOk := true, closeOk := true,
    iterOutcome := fun i => some (([100, 110, 90, 105, 95] : List Rat).getD i 0) }

/-- A benchmark environment measuring the spec's example optimized timings. -/
def exampleOptBench : BenchParams :=
  { connectOk := true, warmupOk := true, closeOk := true,
    iterOutcome := fun i => some (([60, 65, 55, 62, 58] : List Rat).getD i 0) }

/-- The low-indexed-tables INDEX suggestion is the only rule-engine
suggestion with type INDEX and confidence 0.7; this recognizes it without
depending on message text. -/
def isLowIndexPctSugg (s : Suggestion) : Bool :=
  decide (s.suggestionType = "INDEX" ∧ s.confidence = 7/10)

/-- The WHERE-clause INDEX suggestion of the index rule group (type INDEX,
confidence 0.6, 100 ms, cost LOW). -/
def isWhereIndexSugg (s : Suggestion) : Bool :=
  decide (s.suggestionType = "INDEX" ∧ s.confidence = 3/5 ∧
    s.estimatedImprovementMs = 100 ∧ s.implementationCost = "LOW")

/-- The sequential-scan INDEX suggestion of the plan rule group (type INDEX,
confidence 0.8, 300 ms, cost MEDIUM). -/
def isSeqScanIdxSugg (s : Suggestion) : Bool :=
  decide (s.suggestionType = "INDEX" ∧ s.confidence = 4/5 ∧
    s.estimatedImprovementMs = 300 ∧ s.implementationCost = "MEDIUM")

/-- A feature record with a WHERE clause and no indexed-tables percentage. -/
def concreteWhereFeature : QueryFeature :=
  { numJoins := 0, hasSelectStar := false, hasWhereClause := true,
    numSubqueries := 0, indexedTablesPct := none, avgTableSizeMb := none }

/-- A feature record whose indexed-tables percentage is exactly 0.0. -/
def concreteZeroPctFeature : QueryFeature :=
  { numJoins := 0, hasSelectStar := false, hasWhereClause := false,
    numSubqueries := 0, indexedTablesPct := some 0, avgTableSizeMb := none }

/-- A feature record whose indexed-tables percentage is 25. -/
def concretePctFeature : QueryFeature :=
  { numJoins := 0, hasSelectStar := false, hasWhereClause := false,
    numSubqueries := 0, indexedTablesPct := some 25, avgTableSizeMb := none }

/-- The JSON object `\x7b"Plans": 5\x7d`: its root is an object, yet parsing
fails (iterating the number 5 raises `TypeError`). -/
def plansFiveJson : Json := .obj (.cons "Plans" (.num 5) .nil)

/-- The JSON object `\x7b"foo": "Seq Scan"\x7d`: no plan node is a sequential
scan, yet "Seq Scan" occurs in the `str()` rendering. -/
def fooSeqScanJson : Json := .obj (.cons "foo" (.str "Seq Scan") .nil)

/-- An execution-plan row holding `fooSeqScanJson`. -/
def fooSeqScanPlanRow : ExecutionPlan :=
  { planJson := some fooSeqScanJson, totalCost := none, planDepth := none }

/-- The node produced by parsing an empty JSON object: node type defaults to
"Unknown", cost to 0, no children. -/
def unknownLeafNode : PlanNode :=
  .mk { nodeType := .str "Unknown", totalCost := 0, actualTime := none,
        planRows := none, actualRows := none, scanType := none,
        joinType := none, tableName := none, indexName := none } .nil

/-- A minimal plan JSON whose root is a sequential-scan node. -/
def seqScanNodeJson : Json := .obj (.cons "Node Type" (.str "Seq Scan") .nil)

/-- The node produced by parsing `seqScanNodeJson`. -/
def seqScanLeafNode : PlanNode :=
  .mk { nodeType := .str "Seq Scan", totalCost := 0, actualTime := none,
        planRows := none, actualRows := none,
        scanType := some (.str "Seq Scan"), joinType := none,
        tableName := none, indexName := none } .nil

/-- An execution-plan row holding `seqScanNodeJson`. -/
def seqScanPlanRow : ExecutionPlan :=
  { planJson := some seqScanNodeJson, totalCost := none, planDepth := none }

/-- The sequential-scan INDEX suggestion emitted by the plan rule group,
as a named constant for proofs. -/
def seqScanSuggestion : Suggestion :=
  { suggestionType := "INDEX"
    message := "Query uses sequential scan. Consider adding indexes on frequently queried columns"
    confidence := 4/5
    source := "RULE_ENGINE"
    estimatedImprovementMs := 300
    implementationCost := "MEDIUM" }

/-- An example leaf node. -/
def exampleLeafData : PlanNodeData :=
  { nodeType := .str "Result", totalCost := 0, actualTime := none,
    planRows := none, actualRows := none, scanType := none, joinType := none,
    tableName := none, indexName := none }

/-- A root with one child that has one grandchild leaf. -/
def exampleChain : PlanNode :=
  .mk exampleLeafData
    (.cons (.mk exampleLeafData (.cons (.mk exampleLeafData .nil) .nil)) .nil)

/-- A capped list equals the cap-length prefix whether or not the cap binds. -/
theorem capTake_eq (l : List Suggestion) (n : Nat) :
    (if l.length > n then l.take n else l) = l.take n := by
  split
  · rfl
  · next h => exact (List.take_of_length_le (Nat.le_of_not_lt h)).symm

/-- C1. For every input, `generateSuggestions` returns exactly the first
`max_suggestions_per_query` elements of the concatenation of the four rule
groups (structure, raw-performance, plan-based, index, in that fixed
declaration order, with no deduplication or re-ranking), and in particular
its length is at most `max_suggestions_per_query`. -/
theorem generateSuggestions_truncates_concat (st : Settings) (ql : QueryLog)
    (qf : Option QueryFeature) (ep : Option ExecutionPlan) :
    generateSuggestions st ql qf ep =
      (applyQueryStructureRules ql qf ++ applyPerformanceRules st ql qf ++
        applyPlanBasedRules ql ep ++ applyIndexRules ql qf ep).take
        st.maxSuggestionsPerQuery ∧
    (generateSuggestions st ql qf ep).length ≤ st.maxSuggestionsPerQuery := by
  have h :
      generateSuggestions st ql qf ep =
        (applyQueryStructureRules ql qf ++ applyPerformanceRules st ql qf ++
          applyPlanBasedRules ql ep ++ applyIndexRules ql qf ep).take
          st.maxSuggestionsPerQuery :=
    capTake_eq _ _
  refine ⟨h, ?_⟩
  rw [h]
  simp [List.length_take]

/-- C2. `benchmarkQuery` always returns exactly `iterations` timings: when
the connection cannot be established the whole list is the sentinel repeated,
and when connection, warm-up and close succeed, entry `i` is the measured
time of iteration `i`, or the sentinel when that iteration's execution
failed (the remaining iterations still run). The function is total — no
exception escapes it. -/
theorem benchmarkQuery_shape (q : String) (p : BenchParams) (n : Nat) :
    (benchmarkQuery q p n).length = n ∧
    (p.connectOk = false → benchmarkQuery q p n = List.replicate n sentinelMs) ∧
    (∀ i, i < n → p.connectOk = true → p.warmupOk = true → p.closeOk = true →
      (benchmarkQuery q p n)[i]? =
        some (match p.iterOutcome i with | some t => t | none => sentinelMs)) := by
  refine ⟨?_, ?_, ?_⟩
  · unfold benchmarkQuery
    split
    · split <;> simp
    · simp
  · intro hc
    unfold benchmarkQuery
    simp [hc]
  · intro i hi hc hw hcl
    unfold benchmarkQuery
    simp [hc, hw, hcl, List.getElem?_map, List.getElem?_range, hi]

/-- Witness for C2 at concrete inputs: a failed connection yields the
sentinel list, and with a live connection a failing second iteration yields
the sentinel at index 1. -/
theorem benchmarkQuery_shape_witness :
    benchmarkQuery "SELECT 1" ⟨false, true, true, fun _ => some 5⟩ 3 =
      List.replicate 3 sentinelMs ∧
    (benchmarkQuery "SELECT 1" ⟨true, true, true, fun _ => none⟩ 2)[1]? =
      some sentinelMs :=
  ⟨(benchmarkQuery_shape "SELECT 1" ⟨false, true, true, fun _ => some 5⟩ 3).2.1 rfl,
   (benchmarkQuery_shape "SELECT 1" ⟨true, true, true, fun _ => none⟩ 2).2.2 1
     (by norm_num) rfl rfl rfl⟩

mutual

/-- The depth computed from `current_depth = d` is `d` plus the number of
edges on the longest root-to-leaf path. -/
theorem calculateDepth_eq : ∀ (t : PlanNode) (d : Nat),
    calculateDepth t d = d + maxRootToLeafEdges t
  | .mk _ .nil, _ => by
    simp [calculateDepth, maxRootToLeafEdges]
  | .mk dd (.cons c rest), d => by
    have h := calculateDepthFold_eq (.cons c rest) d d
    simp only [calculateDepth, maxRootToLeafEdges, h]
    omega

/-- The `max_depth` fold returns the accumulator maximized with
`d + 1 + maxEdgesList` over a non-empty child list. -/
theorem calculateDepthFold_eq : ∀ (cs : PlanNodeList) (d acc : Nat),
    calculateDepthFold cs d acc =
      (match cs with
       | .nil => acc
       | .cons _ _ => max acc (d + 1 + maxEdgesList cs))
  | .nil, _, _ => by simp [calculateDepthFold]
  | .cons c rest, d, acc => by
    have hc := calculateDepth_eq c (d + 1)
    cases rest with
    | nil =>
      show calculateDepthFold .nil d (max acc (calculateDepth c (d + 1))) = _
      rw [calculateDepthFold, hc]
      simp only [maxEdgesList]
      omega
    | cons c2 rest2 =>
      have hr := calculateDepthFold_eq (.cons c2 rest2) d
        (max acc (calculateDepth c (d + 1)))
      show calculateDepthFold (.cons c2 rest2) d
        (max acc (calculateDepth c (d + 1))) = _
      rw [hr, hc]
      simp only [maxEdgesList]
      omega

end

/-- C6. For every finite plan tree, the depth computed by the analyzer
(`_calculate_depth` with its default `current_depth = 0`) equals the maximum
number of edges on any root-to-leaf path; a leaf yields 0 and
root–child–grandchild yields 2. -/
theorem planDepth_eq_maxEdges :
    (∀ t : PlanNode, calculateDepth t 0 = maxRootToLeafEdges t) ∧
    calculateDepth (.mk exampleLeafData .nil) 0 = 0 ∧
    calculateDepth exampleChain 0 = 2 := by
  refine ⟨fun t => ?_, rfl, rfl⟩
  have h := calculateDepth_eq t 0
  omega

/-- C7. The complexity score always lies in [0, 1], and — holding the query
text and every other input fixed — it is non-decreasing in the join count
and non-decreasing in the subquery count. -/
theorem complexityScore_bounds_monotone (text : String)
    (j j2 s s2 : Nat) (agg : Bool) :
    (0 ≤ complexityScore text j s agg ∧ complexityScore text j s agg ≤ 1) ∧
    (j ≤ j2 → complexityScore text j s agg ≤ complexityScore text j2 s agg) ∧
    (s ≤ s2 → complexityScore text j s agg ≤ complexityScore text j s2 agg) := by
  refine ⟨⟨?_, ?_⟩, ?_, ?_⟩
  · unfold complexityScore
    have h1 : (0 : Rat) ≤ min ((text.length : Rat) / 1000) 1 :=
      le_min (by positivity) (by norm_num)
    have h2 : (0 : Rat) ≤ min ((j : Rat) * (3/20)) (2/5) :=
      le_min (by positivity) (by norm_num)
    have h3 : (0 : Rat) ≤ min ((s : Rat) * (1/4)) (1/2) :=
      le_min (by positivity) (by norm_num)
    have h4 : (0 : Rat) ≤ (if agg then (2/25 : Rat) else 0) := by
      split <;> norm_num
    have h5 : (0 : Rat) ≤
        (if strContainsSub text.toUpper "UNION" then (3/25 : Rat) else 0) := by
      split <;> norm_num
    have h6 : (0 : Rat) ≤ (if existsInMatch text then (2/25 : Rat) else 0) := by
      split <;> norm_num
    refine le_min ?_ (by norm_num)
    linarith
  · unfold complexityScore
    exact min_le_right _ _
  · intro hj
    unfold complexityScore
    gcongr
  · intro hs
    unfold complexityScore
    gcongr

/-- Witness for C7: the bounds and both monotonicity clauses applied at a
concrete query with join counts 1 ≤ 2 and subquery counts 0 ≤ 3. -/
theorem complexityScore_bounds_monotone_witness :
    (0 ≤ complexityScore "SELECT * FROM t" 1 0 false ∧
      complexityScore "SELECT * FROM t" 1 0 false ≤ 1) ∧
    complexityScore "SELECT * FROM t" 1 0 false ≤
      complexityScore "SELECT * FROM t" 2 0 false ∧
    complexityScore "SELECT * FROM t" 1 0 false ≤
      complexityScore "SELECT * FROM t" 1 3 false :=
  ⟨(complexityScore_bounds_monotone "SELECT * FROM t" 1 2 0 3 false).1,
   (complexityScore_bounds_monotone "SELECT * FROM t" 1 2 0 3 false).2.1
     (by norm_num),
   (complexityScore_bounds_monotone "SELECT * FROM t" 1 2 0 3 false).2.2
     (by norm_num)⟩

/-- Counterexample to C3. With zero iterations `statistics.mean` raises, the
`except` branch runs, and the failure result is returned with
`storeAttempted = false`: the benchmark result is not persisted on internal
failure, contradicting "persists the BenchmarkResult in every run". -/
theorem runBenchmark_failure_not_stored :
    (runComprehensiveBenchmark concreteQueryLog concreteOptResult
      concreteBenchOk concreteBenchOk 0).storeAttempted = false ∧
    (runComprehensiveBenchmark concreteQueryLog concreteOptResult
      concreteBenchOk concreteBenchOk 0).result.success = false := by
  decide

/-- C3 (amended). `runComprehensiveBenchmark` attempts persistence exactly
on the success path; on internal failure it returns — without storing — a
result with `success = false`, a populated `error_message`, and the
single-element placeholder `[0.0]` for both time series. -/
theorem runBenchmark_persistence (ql : QueryLog) (opt : OptimizationResult)
    (p1 p2 : BenchParams) (n : Nat) :
    (runComprehensiveBenchmark ql opt p1 p2 n).storeAttempted =
      (runComprehensiveBenchmark ql opt p1 p2 n).result.success ∧
    ((runComprehensiveBenchmark ql opt p1 p2 n).result.success = false →
      (runComprehensiveBenchmark ql opt p1 p2 n).result.errorMessage.isSome = true ∧
      (runComprehensiveBenchmark ql opt p1 p2 n).result.originalTimes = [0] ∧
      (runComprehensiveBenchmark ql opt p1 p2 n).result.optimizedTimes = [0]) := by
  by_cases h : ((benchmarkQuery ql.queryText p1 n).isEmpty ||
      (benchmarkQuery opt.optimizedQuery p2 n).isEmpty) = true
  · simp [runComprehensiveBenchmark, h]
  · rw [Bool.not_eq_true] at h
    simp [runComprehensiveBenchmark, h]

/-- Witness for C3's amended theorem at the concrete zero-iteration run. -/
theorem runBenchmark_persistence_witness :
    (runComprehensiveBenchmark concreteQueryLog concreteOptResult
      concreteBenchOk concreteBenchOk 0).result.errorMessage.isSome = true ∧
    (runComprehensiveBenchmark concreteQueryLog concreteOptResult
      concreteBenchOk concreteBenchOk 0).result.originalTimes = [0] ∧
    (runComprehensiveBenchmark concreteQueryLog concreteOptResult
      concreteBenchOk concreteBenchOk 0).result.optimizedTimes = [0] :=
  (runBenchmark_persistence concreteQueryLog concreteOptResult
    concreteBenchOk concreteBenchOk 0).2 (by decide)

/-- C4. On the success path, `improvement_ms` is the difference of the
arithmetic means and `improvement_pct` is `improvement_ms / original_avg ×
100`, with 0 when the original mean is 0; at the spec's example timings
(original mean 100, optimized mean 60) the result is exactly 40 % and 40 ms. -/
theorem runBenchmark_improvement (ql : QueryLog) (opt : OptimizationResult)
    (p1 p2 : BenchParams) (n : Nat) :
    ((runComprehensiveBenchmark ql opt p1 p2 n).result.success = true →
      (runComprehensiveBenchmark ql opt p1 p2 n).result.improvementMs =
        mean (runComprehensiveBenchmark ql opt p1 p2 n).result.originalTimes -
          mean (runComprehensiveBenchmark ql opt p1 p2 n).result.optimizedTimes ∧
      (0 < mean (runComprehensiveBenchmark ql opt p1 p2 n).result.originalTimes →
        (runComprehensiveBenchmark ql opt p1 p2 n).result.improvementPct =
          ((runComprehensiveBenchmark ql opt p1 p2 n).result.improvementMs /
            mean (runComprehensiveBenchmark ql opt p1 p2 n).result.originalTimes) * 100) ∧
      (mean (runComprehensiveBenchmark ql opt p1 p2 n).result.originalTimes = 0 →
        (runComprehensiveBenchmark ql opt p1 p2 n).result.improvementPct = 0)) ∧
    (runComprehensiveBenchmark concreteQueryLog concreteOptResult
      exampleOrigBench exampleOptBench 5).result.improvementPct = 40 ∧
    (runComprehensiveBenchmark concreteQueryLog concreteOptResult
      exampleOrigBench exampleOptBench 5).result.improvementMs = 40 := by
  have hb1 : benchmarkQuery concreteQueryLog.queryText exampleOrigBench 5 =
      [100, 110, 90, 105, 95] := by
    simp [benchmarkQuery, exampleOrigBench, List.range_succ, List.getD]
  have hb2 : benchmarkQuery concreteOptResult.optimizedQuery exampleOptBench 5 =
      [60, 65, 55, 62, 58] := by
    simp [benchmarkQuery, exampleOptBench, List.range_succ, List.getD]
  have hconc :
      (runComprehensiveBenchmark concreteQueryLog concreteOptResult
        exampleOrigBench exampleOptBench 5).result.improvementPct = 40 ∧
      (runComprehensiveBenchmark concreteQueryLog concreteOptResult
        exampleOrigBench exampleOptBench 5).result.improvementMs = 40 := by
    simp only [runComprehensiveBenchmark, hb1, hb2]
    norm_num [mean]
  refine ⟨?_, hconc.1, hconc.2⟩
  by_cases h : ((benchmarkQuery ql.queryText p1 n).isEmpty ||
      (benchmarkQuery opt.optimizedQuery p2 n).isEmpty) = true
  · simp [runComprehensiveBenchmark, h]
  · rw [Bool.not_eq_true] at h
    simp only [runComprehensiveBenchmark, h, Bool.false_eq_true, if_false]
    intro _
    refine ⟨by trivial, ?_, ?_⟩
    · intro hpos
      rw [if_pos hpos]
    · intro hzero
      rw [if_neg (by rw [hzero]; exact lt_irrefl 0)]

/-- Witness for C4's success-path clauses at a concrete all-successful run. -/
theorem runBenchmark_improvement_witness :
    (runComprehensiveBenchmark concreteQueryLog concreteOptResult
      exampleOrigBench exampleOptBench 5).result.improvementMs =
      mean (runComprehensiveBenchmark concreteQueryLog concreteOptResult
        exampleOrigBench exampleOptBench 5).result.originalTimes -
        mean (runComprehensiveBenchmark concreteQueryLog concreteOptResult
          exampleOrigBench exampleOptBench 5).result.optimizedTimes :=
  ((runBenchmark_improvement concreteQueryLog concreteOptResult
    exampleOrigBench exampleOptBench 5).1 (by decide)).1

/-- A conditional singleton contributes nothing when the predicate rejects
its element. -/
theorem any_if_singleton {c : Prop} [Decidable c] {s : Suggestion}
    {p : Suggestion → Bool} (h : p s = false) :
    (if c then [s] else []).any p = false := by
  split <;> simp [h]

/-- The structure rule group never emits an INDEX suggestion of confidence
0.7. -/
theorem anyLowIndex_structureRules (ql : QueryLog) (qf : Option QueryFeature) :
    (applyQueryStructureRules ql qf).any isLowIndexPctSugg = false := by
  cases qf with
  | none => rfl
  | some qf =>
    unfold applyQueryStructureRules
    simp only [List.any_append, Bool.or_eq_false_iff]
    exact ⟨⟨⟨any_if_singleton (by norm_num [isLowIndexPctSugg] <;> decide),
      any_if_singleton (by norm_num [isLowIndexPctSugg] <;> decide)⟩,
      any_if_singleton (by norm_num [isLowIndexPctSugg] <;> decide)⟩,
      any_if_singleton (by norm_num [isLowIndexPctSugg] <;> decide)⟩

/-- The raw-performance rule group never emits an INDEX suggestion of
confidence 0.7. -/
theorem anyLowIndex_perfRules (st : Settings) (ql : QueryLog)
    (qf : Option QueryFeature) :
    (applyPerformanceRules st ql qf).any isLowIndexPctSugg = false := by
  unfold applyPerformanceRules
  simp only [List.any_append, Bool.or_eq_false_iff]
  exact ⟨⟨any_if_singleton (by norm_num [isLowIndexPctSugg] <;> decide),
    any_if_singleton (by norm_num [isLowIndexPctSugg] <;> decide)⟩,
    any_if_singleton (by norm_num [isLowIndexPctSugg] <;> decide)⟩

/-- The plan-based rule group never emits an INDEX suggestion of confidence
0.7 (its INDEX suggestion has confidence 0.8). -/
theorem anyLowIndex_planRules (ql : QueryLog) (ep : Option ExecutionPlan) :
    (applyPlanBasedRules ql ep).any isLowIndexPctSugg = false := by
  cases ep with
  | none => rfl
  | some ep =>
    unfold applyPlanBasedRules
    simp only [List.any_append, Bool.or_eq_false_iff]
    refine ⟨⟨any_if_singleton (by norm_num [isLowIndexPctSugg] <;> decide), ?_⟩, ?_⟩
    · rcases ep.totalCost with _ | c
      · rfl
      · exact any_if_singleton (by norm_num [isLowIndexPctSugg] <;> decide)
    · rcases ep.planDepth with _ | d
      · rfl
      · exact any_if_singleton (by norm_num [isLowIndexPctSugg] <;> decide)

/-- In the index rule group, the low-index-percentage suggestion appears
exactly when the percentage is set, non-zero (truthiness) and under 50. -/
theorem anyLowIndex_indexRules (ql : QueryLog) (qf : QueryFeature)
    (ep : Option ExecutionPlan) :
    (applyIndexRules ql (some qf) ep).any isLowIndexPctSugg =
      (match qf.indexedTablesPct with
       | some pct => decide (pct ≠ 0 ∧ pct < 50)
       | none => false) := by
  unfold applyIndexRules
  simp only [List.any_append]
  have h2 : (if qf.hasWhereClause then
      [{ suggestionType := "INDEX"
         message := "Query has WHERE clause. Ensure indexed columns are used in WHERE conditions"
         confidence := 3/5
         source := "RULE_ENGINE"
         estimatedImprovementMs := 100
         implementationCost := "LOW" }]
     else ([] : List Suggestion)).any isLowIndexPctSugg = false :=
    any_if_singleton (by norm_num [isLowIndexPctSugg] <;> decide)
  rw [h2, Bool.or_false]
  rcases hp : qf.indexedTablesPct with _ | pct
  · simp [hp]
  · simp only [hp]
    split
    · next hcond => simp [isLowIndexPctSugg, hcond]
    · next hcond => simp [hcond]

/-- Any-false survives truncation. -/
theorem any_take_false {p : Suggestion → Bool} {l : List Suggestion} {n : Nat}
    (h : l.any p = false) : (l.take n).any p = false := by
  rw [List.any_eq_false] at h ⊢
  intro x hx
  exact h x (List.take_subset n l hx)

/-- C9. When `indexed_tables_pct` is NULL or exactly 0.0, the
low-index-percentage INDEX suggestion is not emitted by
`generateSuggestions` (0.0 is falsy, although it is below the 50 threshold);
for a non-negative stored percentage the rule fires exactly when the
percentage is strictly between 0 and 50. -/
theorem lowIndexRule_requires_truthy_pct (st : Settings) (ql : QueryLog)
    (qf : QueryFeature) (ep : Option ExecutionPlan) :
    ((qf.indexedTablesPct = none ∨ qf.indexedTablesPct = some 0) →
      (generateSuggestions st ql (some qf) ep).any isLowIndexPctSugg = false) ∧
    (∀ pct, qf.indexedTablesPct = some pct → 0 ≤ pct →
      ((applyIndexRules ql (some qf) ep).any isLowIndexPctSugg = true ↔
        0 < pct ∧ pct < 50)) := by
  constructor
  · intro h
    have hg :
        generateSuggestions st ql (some qf) ep =
          (applyQueryStructureRules ql (some qf) ++
            applyPerformanceRules st ql (some qf) ++
            applyPlanBasedRules ql ep ++
            applyIndexRules ql (some qf) ep).take st.maxSuggestionsPerQuery :=
      capTake_eq _ _
    rw [hg]
    apply any_take_false
    simp only [List.any_append, Bool.or_eq_false_iff]
    refine ⟨⟨⟨anyLowIndex_structureRules ql (some qf),
      anyLowIndex_perfRules st ql (some qf)⟩,
      anyLowIndex_planRules ql ep⟩, ?_⟩
    rw [anyLowIndex_indexRules]
    rcases h with h | h <;> simp [h]
  · intro pct hp hnn
    rw [anyLowIndex_indexRules]
    simp only [hp, decide_eq_true_eq]
    constructor
    · rintro ⟨h1, h2⟩
      exact ⟨lt_of_le_of_ne hnn (Ne.symm h1), h2⟩
    · rintro ⟨h1, h2⟩
      exact ⟨h1.ne', h2⟩

/-- Witness for C9: with the percentage NULL nothing is emitted, and with
percentage 25 the rule fires. -/
theorem lowIndexRule_requires_truthy_pct_witness :
    (generateSuggestions defaultSettings concreteQueryLog
      (some concreteWhereFeature) none).any isLowIndexPctSugg = false ∧
    (applyIndexRules concreteQueryLog (some concretePctFeature) none).any
      isLowIndexPctSugg = true :=
  ⟨(lowIndexRule_requires_truthy_pct defaultSettings concreteQueryLog
      concreteWhereFeature none).1 (Or.inl rfl),
   ((lowIndexRule_requires_truthy_pct defaultSettings concreteQueryLog
      concretePctFeature none).2 25 rfl (by norm_num)).mpr
     ⟨by norm_num, by norm_num⟩⟩

/-- C10. A feature record with `has_where_clause` makes the index rule group
emit the INDEX suggestion with confidence 0.6, 100 ms, cost LOW (before
truncation), so whenever the configured cap is at least 1 the query receives
at least one suggestion. -/
theorem whereClause_yields_index_sugg (st : Settings) (ql : QueryLog)
    (qf : QueryFeature) (ep : Option ExecutionPlan) :
    qf.hasWhereClause = true →
      ((applyIndexRules ql (some qf) ep).any isWhereIndexSugg = true ∧
       (1 ≤ st.maxSuggestionsPerQuery →
         generateSuggestions st ql (some qf) ep ≠ [])) := by
  intro h
  have hidx : (applyIndexRules ql (some qf) ep).any isWhereIndexSugg = true := by
    unfold applyIndexRules
    simp [List.any_append, h, isWhereIndexSugg]
  refine ⟨hidx, ?_⟩
  intro hmax
  have hg :
      generateSuggestions st ql (some qf) ep =
        (applyQueryStructureRules ql (some qf) ++
          applyPerformanceRules st ql (some qf) ++
          applyPlanBasedRules ql ep ++
          applyIndexRules ql (some qf) ep).take st.maxSuggestionsPerQuery :=
    capTake_eq _ _
  rw [hg]
  have hne : applyIndexRules ql (some qf) ep ≠ [] := by
    intro hnil
    rw [hnil] at hidx
    simp at hidx
  intro htake
  rcases List.take_eq_nil_iff.mp htake with h0 | hcat
  · omega
  · simp only [List.append_eq_nil] at hcat
    exact hne hcat.2

/-- Witness for C10 at a concrete WHERE-clause feature and the default
settings (cap 10). -/
theorem whereClause_yields_index_sugg_witness :
    (applyIndexRules concreteQueryLog (some concreteWhereFeature) none).any
      isWhereIndexSugg = true ∧
    generateSuggestions defaultSettings concreteQueryLog
      (some concreteWhereFeature) none ≠ [] :=
  ⟨((whereClause_yields_index_sugg defaultSettings concreteQueryLog
      concreteWhereFeature none) rfl).1,
   ((whereClause_yields_index_sugg defaultSettings concreteQueryLog
      concreteWhereFeature none) rfl).2 (by norm_num [defaultSettings])⟩

/-- An infix of `a` is an infix of `a ++ b`. -/
theorem infixAppendLeft {l a : List Char} (b : List Char) (h : l <:+: a) :
    l <:+: a ++ b := by
  rcases h with ⟨s, t, rfl⟩
  exact ⟨s, t ++ b, by simp⟩

/-- An infix of `b` is an infix of `a ++ b`. -/
theorem infixAppendRight {l b : List Char} (a : List Char) (h : l <:+: b) :
    l <:+: a ++ b := by
  rcases h with ⟨s, t, rfl⟩
  exact ⟨a ++ s, t, by simp⟩

/-- An infix of the fields' rendering is an infix of the object's rendering. -/
theorem infixRenderObj {l : List Char} {fs : JsonFields}
    (h : l <:+: renderFields fs) : l <:+: render (.obj fs) := by
  rcases h with ⟨s, t, hst⟩
  exact ⟨'{' :: s, t ++ ['}'], by simp [render, ← hst]⟩

/-- An infix of the elements' rendering is an infix of the array's rendering. -/
theorem infixRenderArr {l : List Char} {xs : JsonList}
    (h : l <:+: renderElems xs) : l <:+: render (.arr xs) := by
  rcases h with ⟨s, t, hst⟩
  exact ⟨'[' :: s, t ++ [']'], by simp [render, ← hst]⟩

/-- An infix of a string's characters is an infix of the string's rendering. -/
theorem infixRenderStr {l : List Char} {s : String}
    (h : l <:+: s.toList) : l <:+: render (.str s) := by
  rcases h with ⟨a, b, hab⟩
  have hab2 : a ++ l ++ b = s.data := hab
  exact ⟨'\'' :: a, b ++ ['\''], by simp [render, ← hab2, List.append_assoc]⟩

/-- A value's rendering is an infix of its field entry's rendering. -/
theorem infixRenderFieldVal (k : String) (v : Json) :
    render v <:+: renderField k v :=
  ⟨'\'' :: k.toList ++ ['\'', ':', ' '], [], by simp [renderField]⟩

/-- A key's characters are an infix of its field entry's rendering. -/
theorem infixRenderFieldKey (k : String) (v : Json) :
    k.toList <:+: renderField k v :=
  ⟨['\''], '\'' :: ':' :: ' ' :: render v, by simp [renderField]⟩

/-- Unfolding of `renderFields` at a cons cell. -/
theorem renderFields_cons (k : String) (v : Json) (tl : JsonFields) :
    renderFields (.cons k v tl) =
      renderField k v ++
        (match tl with | .nil => [] | .cons _ _ _ => [',', ' ']) ++
        renderFields tl := by
  cases tl <;> rfl

/-- Unfolding of `renderElems` at a cons cell. -/
theorem renderElems_cons (hd : Json) (tl : JsonList) :
    renderElems (.cons hd tl) =
      render hd ++ (match tl with | .nil => [] | .cons _ _ => [',', ' ']) ++
        renderElems tl := by
  cases tl <;> rfl

/-- The rendering of a looked-up value is an infix of the fields' rendering. -/
theorem lookupField_render_infixOf : ∀ (fs : JsonFields) (key : String)
    (v : Json), lookupField fs key = some v → render v <:+: renderFields fs
  | .nil, _, _, h => by simp [lookupField] at h
  | .cons k v' tl, key, v, h => by
    rw [lookupField] at h
    rw [renderFields_cons]
    split at h
    · injection h with hv
      subst hv
      exact infixAppendLeft _ (infixAppendLeft _ (infixRenderFieldVal k v'))
    · exact infixAppendRight _ (lookupField_render_infixOf tl key v h)

/-- The characters of a present key are an infix of the fields' rendering. -/
theorem hasField_key_infixOf : ∀ (fs : JsonFields) (key : String),
    hasField fs key = true → key.toList <:+: renderFields fs
  | .nil, _, h => by simp [hasField, lookupField] at h
  | .cons k v' tl, key, h => by
    rw [hasField, lookupField] at h
    rw [renderFields_cons]
    split at h
    · next heq =>
      have hk : k = key := by simpa using heq
      subst hk
      exact infixAppendLeft _ (infixAppendLeft _ (infixRenderFieldKey k v'))
    · exact infixAppendRight _
        (hasField_key_infixOf tl key (by simpa [hasField] using h))

/-- The characters of a string element are an infix of the elements'
rendering. -/
theorem jsonListHasStr_infixOf : ∀ (xs : JsonList) (s : String),
    jsonListHasStr xs s = true → s.toList <:+: renderElems xs
  | .nil, _, h => by simp [jsonListHasStr] at h
  | .cons hd tl, s, h => by
    rw [jsonListHasStr, Bool.or_eq_true] at h
    rw [renderElems_cons]
    rcases h with h | h
    · cases hd with
      | str t =>
        have ht : t = s := by simpa [jsonStrEq] using h
        subst ht
        refine infixAppendLeft _ (infixAppendLeft _ ?_)
        exact ⟨['\''], ['\''], by simp [render]⟩
      | null => simp [jsonStrEq] at h
      | bool b => simp [jsonStrEq] at h
      | num q => simp [jsonStrEq] at h
      | arr ys => simp [jsonStrEq] at h
      | obj fs => simp [jsonStrEq] at h
    · exact infixAppendRight _ (jsonListHasStr_infixOf tl s h)

/-- Counterexample to C5. The root of `plansFiveJson` is a JSON object (no
enclosing array to unwrap), yet `parse_plan_json` fails — iterating the
number stored under "Plans" raises — so parse failure is not characterized
by "the root is not a JSON object". -/
theorem parsePlanJson_object_root_may_fail :
    rootAfterUnwrap plansFiveJson = some plansFiveJson ∧
    isObjB plansFiveJson = true ∧
    exceptOk (parsePlanJson plansFiveJson) = false := by
  refine ⟨rfl, rfl, rfl⟩

/-- C5 (amended). If the root — after replacing a non-empty array root by
its first element; an empty array root fails outright — is not a JSON
object, the parse fails (a dict-typed node is required; failures can also
arise deeper, from malformed descendants, as the counterexample shows); and
an object lacking the node-type field parses with node type "Unknown"
rather than failing. No partial tree is ever returned: the result is either
a complete tree or an error. -/
theorem parsePlanJson_nonobject_fails_unknown_default :
    (∀ j : Json, (∀ r, rootAfterUnwrap j = some r → isObjB r = false) →
      exceptOk (parsePlanJson j) = false) ∧
    (∀ (fields : JsonFields) (n : PlanNode),
      lookupField fields "Node Type" = none →
      parseNode (.obj fields) = .ok n → n.data.nodeType = .str "Unknown") := by
  constructor
  · intro j h
    cases j with
    | null => rfl
    | bool b => rfl
    | num q => rfl
    | str s => rfl
    | obj fields =>
      have := h (.obj fields) rfl
      simp [isObjB] at this
    | arr xs =>
      cases xs with
      | nil => rfl
      | cons hd tl =>
        have hhd := h hd rfl
        show exceptOk (parseNode hd) = false
        cases hd with
        | null => rfl
        | bool b => rfl
        | num q => rfl
        | str s => rfl
        | arr ys => rfl
        | obj fs => simp [isObjB] at hhd
  · intro fields n hlk hp
    rw [parseNode] at hp
    simp only [pyGet, hlk, Option.getD] at hp
    split at hp
    · exact Except.noConfusion hp
    · split at hp
      · exact Except.noConfusion hp
      · split at hp
        · exact Except.noConfusion hp
        · split at hp
          · exact Except.noConfusion hp
          · injection hp with hp'
            subst hp'
            rfl

/-- Witness for C5's amended theorem: a numeric root fails to parse, and the
empty object parses to a node with node type "Unknown". -/
theorem parsePlanJson_nonobject_fails_unknown_default_witness :
    exceptOk (parsePlanJson (Json.num 3)) = false ∧
    unknownLeafNode.data.nodeType = .str "Unknown" :=
  ⟨parsePlanJson_nonobject_fails_unknown_default.1 (Json.num 3)
      (fun r hr => by cases hr; rfl),
   parsePlanJson_nonobject_fails_unknown_default.2 .nil unknownLeafNode rfl rfl⟩

mutual

/-- If a JSON value parses to a node whose tree contains a sequential scan
(in the parser's sense), then "Seq Scan" occurs in the value's `str()`
rendering: the scan hit is a string (or key, or list element) of the JSON,
and every such string renders verbatim. -/
theorem parseNode_seqScan_infixOf : ∀ (j : Json) (t : PlanNode),
    parseNode j = .ok t → hasSeqScanE t = .ok true → seqScanChars <:+: render j
  | .null, _ => fun hp _ => Except.noConfusion hp
  | .bool _, _ => fun hp _ => Except.noConfusion hp
  | .num _, _ => fun hp _ => Except.noConfusion hp
  | .str _, _ => fun hp _ => Except.noConfusion hp
  | .arr _, _ => fun hp _ => Except.noConfusion hp
  | .obj fields, t => by
    intro hp hs
    rw [parseNode] at hp
    split at hp
    · exact Except.noConfusion hp
    · split at hp
      · exact Except.noConfusion hp
      · next isScan hscan =>
        split at hp
        · exact Except.noConfusion hp
        · split at hp
          · exact Except.noConfusion hp
          · next children hchild =>
            injection hp with hp'
            subst hp'
            cases isScan with
            | false =>
              rw [hasSeqScanE] at hs
              exact infixRenderObj
                (parsePlansIn_seqScan_infixOf fields children hchild hs)
            | true =>
              rw [hasSeqScanE] at hs
              dsimp only at hs
              split at hs
              · rename_i v hv
                have hv2 : some (pyGet fields "Node Type" (Json.str "Unknown")) =
                    some v := by simpa using hv
                injection hv2 with hv3
                subst hv3
                split at hs
                · -- truthy scan type: the membership test ran
                  rcases heq : pyInStr "Seq Scan"
                      (pyGet fields "Node Type" (.str "Unknown")) with e | b
                  · rw [heq] at hs
                    exact Except.noConfusion hs
                  · rw [heq] at hs
                    cases b with
                    | false =>
                      exact infixRenderObj
                        (parsePlansIn_seqScan_infixOf fields children hchild hs)
                    | true =>
                      -- a hit at the root node's type
                      rcases hlk : lookupField fields "Node Type" with _ | v
                      · simp only [pyGet, hlk, Option.getD] at heq
                        rw [pyInStr] at heq
                        injection heq with heq'
                        exact absurd (of_decide_eq_true heq') (by decide)
                      · simp only [pyGet, hlk, Option.getD] at heq
                        have hvinf : render v <:+: renderFields fields :=
                          lookupField_render_infixOf fields "Node Type" v hlk
                        cases v with
                        | str s =>
                          rw [pyInStr] at heq
                          injection heq with heq'
                          exact infixRenderObj
                            ((infixRenderStr (of_decide_eq_true heq')).trans hvinf)
                        | arr ys =>
                          rw [pyInStr] at heq
                          injection heq with heq'
                          exact infixRenderObj
                            ((infixRenderArr
                              (jsonListHasStr_infixOf ys "Seq Scan" heq')).trans hvinf)
                        | obj fs2 =>
                          rw [pyInStr] at heq
                          injection heq with heq'
                          exact infixRenderObj
                            ((infixRenderObj
                              (hasField_key_infixOf fs2 "Seq Scan" heq')).trans hvinf)
                        | null => exact Except.noConfusion heq
                        | bool b2 => exact Except.noConfusion heq
                        | num q => exact Except.noConfusion heq
                · -- falsy scan type: only children are inspected
                  exact infixRenderObj
                    (parsePlansIn_seqScan_infixOf fields children hchild hs)
              · rename_i hv
                exact absurd hv (by simp)

/-- The `Plans` walk: a sequential-scan hit among the parsed children puts
"Seq Scan" into the fields' rendering. -/
theorem parsePlansIn_seqScan_infixOf : ∀ (fs : JsonFields) (cs : PlanNodeList),
    parsePlansIn fs = .ok cs → hasSeqScanListE cs = .ok true →
    seqScanChars <:+: renderFields fs
  | .nil, cs => by
    intro hp hs
    rw [parsePlansIn] at hp
    injection hp with hp'
    subst hp'
    simp [hasSeqScanListE] at hs
  | .cons k v tl, cs => by
    intro hp hs
    rw [renderFields_cons]
    cases v with
    | arr xs =>
      rw [show parsePlansIn (.cons k (.arr xs) tl) =
          if k == "Plans" then parseChildren xs else parsePlansIn tl from rfl] at hp
      split at hp
      · have h1 := parseChildren_seqScan_infixOf xs cs hp hs
        exact infixAppendLeft _ (infixAppendLeft _
          ((infixRenderArr h1).trans (infixRenderFieldVal k (.arr xs))))
      · exact infixAppendRight _ (parsePlansIn_seqScan_infixOf tl cs hp hs)
    | obj fs2 =>
      cases fs2 with
      | nil =>
        rw [show parsePlansIn (.cons k (.obj .nil) tl) =
            if k == "Plans" then .ok .nil else parsePlansIn tl from rfl] at hp
        split at hp
        · injection hp with hp'
          subst hp'
          simp [hasSeqScanListE] at hs
        · exact infixAppendRight _ (parsePlansIn_seqScan_infixOf tl cs hp hs)
      | cons k2 v2 t2 =>
        rw [show parsePlansIn (.cons k (.obj (.cons k2 v2 t2)) tl) =
            if k == "Plans" then
              .error "AttributeError: object has no attribute get"
            else parsePlansIn tl from rfl] at hp
        split at hp
        · exact Except.noConfusion hp
        · exact infixAppendRight _ (parsePlansIn_seqScan_infixOf tl cs hp hs)
    | str s2 =>
      rw [show parsePlansIn (.cons k (.str s2) tl) =
          if k == "Plans" then
            (if s2.isEmpty then .ok .nil
             else .error "AttributeError: object has no attribute get")
          else parsePlansIn tl from rfl] at hp
      split at hp
      · split at hp
        · injection hp with hp'
          subst hp'
          simp [hasSeqScanListE] at hs
        · exact Except.noConfusion hp
      · exact infixAppendRight _ (parsePlansIn_seqScan_infixOf tl cs hp hs)
    | null =>
      rw [show parsePlansIn (.cons k .null tl) =
          if k == "Plans" then .error "TypeError: object is not iterable"
          else parsePlansIn tl from rfl] at hp
      split at hp
      · exact Except.noConfusion hp
      · exact infixAppendRight _ (parsePlansIn_seqScan_infixOf tl cs hp hs)
    | bool b =>
      rw [show parsePlansIn (.cons k (.bool b) tl) =
          if k == "Plans" then .error "TypeError: object is not iterable"
          else parsePlansIn tl from rfl] at hp
      split at hp
      · exact Except.noConfusion hp
      · exact infixAppendRight _ (parsePlansIn_seqScan_infixOf tl cs hp hs)
    | num q =>
      rw [show parsePlansIn (.cons k (.num q) tl) =
          if k == "Plans" then .error "TypeError: object is not iterable"
          else parsePlansIn tl from rfl] at hp
      split at hp
      · exact Except.noConfusion hp
      · exact infixAppendRight _ (parsePlansIn_seqScan_infixOf tl cs hp hs)

/-- A sequential-scan hit among children parsed from a JSON list puts
"Seq Scan" into the elements' rendering. -/
theorem parseChildren_seqScan_infixOf : ∀ (xs : JsonList) (cs : PlanNodeList),
    parseChildren xs = .ok cs → hasSeqScanListE cs = .ok true →
    seqScanChars <:+: renderElems xs
  | .nil, cs => by
    intro hp hs
    rw [parseChildren] at hp
    injection hp with hp'
    subst hp'
    simp [hasSeqScanListE] at hs
  | .cons hd tlx, cs => by
    intro hp hs
    rw [parseChildren] at hp
    rw [renderElems_cons]
    split at hp
    · exact Except.noConfusion hp
    · next c hc =>
      split at hp
      · exact Except.noConfusion hp
      · next cs' hcs =>
        injection hp with hp'
        subst hp'
        rw [hasSeqScanListE] at hs
        split at hs
        · exact Except.noConfusion hs
        · next hroot =>
          exact infixAppendLeft _ (infixAppendLeft _
            (parseNode_seqScan_infixOf hd c hc hroot))
        · next hroot =>
          exact infixAppendRight _
            (parseChildren_seqScan_infixOf tlx cs' hcs hs)

end

/-- The plan-based group emits its INDEX suggestion exactly when the
sequential-scan rule's guard fires; the other two plan rules emit other
suggestion types. -/
theorem anySeqIdx_planRules (ql : QueryLog) (ep : ExecutionPlan) :
    (applyPlanBasedRules ql (some ep)).any isSeqScanIdxSugg =
      planSeqScanFires ep := by
  have hmain : ∀ (A B : List Suggestion), A.any isSeqScanIdxSugg = false →
      B.any isSeqScanIdxSugg = false →
      ((if planSeqScanFires ep then [seqScanSuggestion] else []) ++ A ++
          B).any isSeqScanIdxSugg = planSeqScanFires ep := by
    intro A B hA hB
    simp only [List.any_append, hA, hB, Bool.or_false]
    by_cases hf : planSeqScanFires ep = true
    · simp [hf, isSeqScanIdxSugg, seqScanSuggestion]
    · rw [Bool.not_eq_true] at hf
      simp [hf]
  unfold applyPlanBasedRules
  refine hmain _ _ ?_ ?_
  · rcases ep.totalCost with _ | c
    · rfl
    · exact any_if_singleton (by norm_num [isSeqScanIdxSugg])
  · rcases ep.planDepth with _ | d
    · rfl
    · exact any_if_singleton (by norm_num [isSeqScanIdxSugg])

/-- Counterexample to C8. For the plan JSON holding "Seq Scan" only as an
unrelated string value, the rule fires (the substring occurs in the `str()`
rendering) although the parsed plan contains no sequential scan, so "fires
iff the plan contains a sequential scan" is false. -/
theorem seqScanRule_fires_without_scan_node :
    (applyPlanBasedRules concreteQueryLog (some fooSeqScanPlanRow)).any
      isSeqScanIdxSugg = true ∧
    planContainsSeqScan fooSeqScanJson = .ok false := by
  constructor
  · rw [anySeqIdx_planRules]
    decide
  · rfl

/-- C8 (amended). The plan-based rule group emits the INDEX suggestion with
confidence 0.8, 300 ms, cost MEDIUM exactly when the stored plan JSON is
truthy and "Seq Scan" occurs as a substring of its `str()` rendering; in
particular the suggestion is emitted whenever the plan JSON parses and the
parsed tree contains a sequential scan, but it may also fire on plans whose
rendering merely mentions "Seq Scan". -/
theorem seqScanRule_iff_rendering (ql : QueryLog) (ep : ExecutionPlan) :
    ((applyPlanBasedRules ql (some ep)).any isSeqScanIdxSugg = true ↔
      ∃ j, ep.planJson = some j ∧ jsonTruthy j = true ∧
        seqScanChars <:+: render j) ∧
    (∀ j t, ep.planJson = some j → parsePlanJson j = .ok t →
      hasSeqScanE t = .ok true →
      (applyPlanBasedRules ql (some ep)).any isSeqScanIdxSugg = true) := by
  constructor
  · rw [anySeqIdx_planRules]
    unfold planSeqScanFires
    rcases hj : ep.planJson with _ | j
    · simp
    · simp only [Bool.and_eq_true, decide_eq_true_eq]
      constructor
      · rintro ⟨h1, h2⟩
        exact ⟨j, rfl, h1, h2⟩
      · rintro ⟨j2, hj2, h1, h2⟩
        injection hj2 with hjj
        subst hjj
        exact ⟨h1, h2⟩
  · intro j t hj hp hscan
    rw [anySeqIdx_planRules]
    unfold planSeqScanFires
    rw [hj]
    dsimp only
    cases j with
    | null => exact Except.noConfusion hp
    | bool b => exact Except.noConfusion hp
    | num q => exact Except.noConfusion hp
    | str s => exact Except.noConfusion hp
    | obj fields =>
      cases fields with
      | nil =>
        rw [show parsePlanJson (.obj .nil) = .ok unknownLeafNode from rfl] at hp
        injection hp with hp'
        subst hp'
        exact absurd hscan (by simp [show hasSeqScanE unknownLeafNode = .ok false from rfl])
      | cons k v tl =>
        have hinf := parseNode_seqScan_infixOf (.obj (.cons k v tl)) t hp hscan
        rw [show jsonTruthy (Json.obj (.cons k v tl)) = true from rfl,
          Bool.true_and]
        exact decide_eq_true hinf
    | arr xs =>
      cases xs with
      | nil => exact Except.noConfusion hp
      | cons hd tlx =>
        have hinf : seqScanChars <:+: render hd :=
          parseNode_seqScan_infixOf hd t hp hscan
        have h2 : seqScanChars <:+: renderElems (.cons hd tlx) := by
          rw [renderElems_cons]
          exact infixAppendLeft _ (infixAppendLeft _ hinf)
        rw [show jsonTruthy (Json.arr (.cons hd tlx)) = true from rfl,
          Bool.true_and]
        exact decide_eq_true (infixRenderArr h2)

/-- Witness for C8's amended theorem: the iff applied at the string-content
plan and the implication applied at a genuine sequential-scan plan — both
make the rule fire. -/
theorem seqScanRule_iff_rendering_witness :
    (applyPlanBasedRules concreteQueryLog (some fooSeqScanPlanRow)).any
      isSeqScanIdxSugg = true ∧
    (applyPlanBasedRules concreteQueryLog (some seqScanPlanRow)).any
      isSeqScanIdxSugg = true :=
  ⟨(seqScanRule_iff_rendering concreteQueryLog fooSeqScanPlanRow).1.mpr
      ⟨fooSeqScanJson, rfl, rfl, by decide⟩,
   (seqScanRule_iff_rendering concreteQueryLog seqScanPlanRow).2
      seqScanNodeJson seqScanLeafNode rfl rfl rfl⟩
